import Mathlib

/-!
Shallow embedding of the transcript-formatting core of `dnd-scribe.py`
(`format_timestamp`, `create_dnd_transcript`, and the filename generation
in `main`), together with proofs of the specified properties.

Python numbers (float seconds) are modelled as rationals; Python's
floor-division `//` and modulo `%` on them are `Int.floor` of the quotient
and `s - m * ⌊s / m⌋` respectively, which is exact for every real value a
float can hold.  Python's decimal rendering of integers with the `d`
format (zero-padded with a minimum width) is embedded by an explicit
base-10 digit expansion.
-/

/-- Base-10 digit expansion of a natural number, most significant first,
with explicit fuel so that the definition reduces in the kernel.
`decDigitsAux fuel n = []` when `n = 0`. -/
def decDigitsAux : Nat → Nat → List Char
  | 0, _ => []
  | fuel + 1, n => if n = 0 then [] else decDigitsAux fuel (n / 10) ++ [Nat.digitChar (n % 10)]

/-- Python's decimal rendering of a natural number (no padding, no sign). -/
def natToDec (n : Nat) : String := if n = 0 then "0" else String.mk (decDigitsAux n n)

/-- Python's `f"{n:02d}"` for a non-negative value: zero-pad to at least
two characters. -/
def padNat2 (n : Nat) : String := if n < 10 then "0" ++ natToDec n else natToDec n

/-- Python's `f"{n:04d}"` for a non-negative value: zero-pad to at least
four characters. -/
def padNat4 (n : Nat) : String :=
  if n < 10 then "000" ++ natToDec n
  else if n < 100 then "00" ++ natToDec n
  else if n < 1000 then "0" ++ natToDec n
  else natToDec n

/-- Python's `f"{i:02d}"` on an `int`: for a negative value the sign plus
the digits already fill the minimum width of two, so no zero is inserted. -/
def pad2Int (i : Int) : String :=
  if i < 0 then "-" ++ natToDec i.natAbs else padNat2 i.toNat

/-- Python's `%` on numbers with a positive modulus: `s % m = s - m * (s // m)`
where `//` is floor division. -/
def pymod (s m : ℚ) : ℚ := s - m * (⌊s / m⌋ : ℤ)

/-- `format_timestamp` (src/dnd-scribe.py:46-51):
`hours = int(seconds // 3600)`, `minutes = int((seconds % 3600) // 60)`,
`secs = int(seconds % 60)`, rendered as `f"{hours:02d}:{minutes:02d}:{secs:02d}"`.
`int()` truncates toward zero, but each operand it is applied to is either a
floor (`//`) or a non-negative modulus, so every field is a floor. -/
def hoursOf (s : ℚ) : ℤ := ⌊s / 3600⌋

def minutesOf (s : ℚ) : ℤ := ⌊pymod s 3600 / 60⌋

def secsOf (s : ℚ) : ℤ := ⌊pymod s 60⌋

def format_timestamp (s : ℚ) : String :=
  pad2Int (hoursOf s) ++ ":" ++ pad2Int (minutesOf s) ++ ":" ++ pad2Int (secsOf s)

/-- The wall-clock instant returned by one `datetime.now()` call, to the
second (the only precision the program formats). -/
structure PyDateTime where
  year : Nat
  month : Nat
  day : Nat
  hour : Nat
  minute : Nat
  second : Nat
deriving DecidableEq

/-- `datetime.strftime('%Y-%m-%d %H:%M:%S')` as used in the header line. -/
def strftimeHeader (t : PyDateTime) : String :=
  padNat4 t.year ++ "-" ++ padNat2 t.month ++ "-" ++ padNat2 t.day ++ " " ++
    padNat2 t.hour ++ ":" ++ padNat2 t.minute ++ ":" ++ padNat2 t.second

/-- `datetime.strftime('%Y%m%d_%H%M%S')` as used in the filename. -/
def strftimeFile (t : PyDateTime) : String :=
  padNat4 t.year ++ padNat2 t.month ++ padNat2 t.day ++ "_" ++
    padNat2 t.hour ++ padNat2 t.minute ++ padNat2 t.second

/-- A recognized speech segment as consumed by the formatter:
`segment.start` (seconds) and `segment.text`. -/
structure Segment where
  start : ℚ
  text : String

/-- Python's whitespace test for `str.strip()`, restricted to the ASCII
whitespace characters. -/
def isPyWhite (c : Char) : Bool :=
  c = ' ' || c = '\t' || c = '\n' || c = '\x0d' || c = '\x0b' || c = '\x0c'

/-- Python's `str.strip()`: remove leading and trailing whitespace. -/
def pyStrip (s : String) : String :=
  String.mk (((s.data.dropWhile isPyWhite).reverse.dropWhile isPyWhite).reverse)

/-- The four header lines appended at src/dnd-scribe.py:58-61, given the
instant read by `datetime.now()` at line 60. -/
def headerLines (now : PyDateTime) : List String :=
  ["D&D SESSION TRANSCRIPTION",
   String.mk (List.replicate 50 '='),
   "Generated on: " ++ strftimeHeader now,
   ""]

/-- The three lines appended for one segment in the loop body
(src/dnd-scribe.py:63-71). -/
def segLines (seg : Segment) : List String :=
  ["[" ++ format_timestamp seg.start ++ "]", pyStrip seg.text, ""]

/-- The `transcript_lines` accumulator after the loop: the header followed
by each segment's lines, appended in input order. -/
def transcriptLines (now : PyDateTime) (segments : List Segment) : List String :=
  segments.foldl (fun acc seg => acc ++ segLines seg) (headerLines now)

/-- `create_dnd_transcript` (src/dnd-scribe.py:53-73), with the
`datetime.now()` read at line 60 passed explicitly: build the line list,
then `"\n".join` it. -/
def create_dnd_transcript (now : PyDateTime) (segments : List Segment) : String :=
  String.intercalate "\n" (transcriptLines now segments)

/-- The filename built at src/dnd-scribe.py:256 from a fresh
`datetime.now()` read. -/
def transcript_filename (now : PyDateTime) : String :=
  "dnd_session_" ++ strftimeFile now ++ ".txt"

/-- The transcript-and-filename step of `main` (src/dnd-scribe.py:252-257):
`datetime.now()` is read twice, once inside `create_dnd_transcript`
(`t1`, line 60) and once for the filename (`t2`, line 256, the later
read). -/
def mainOutputs (t1 t2 : PyDateTime) (segments : List Segment) : String × String :=
  (create_dnd_transcript t1 segments, transcript_filename t2)

/-- The document described word-for-word by the spec (§4.2): title line,
separator of 50 `=`, generated-on line, blank line, then for each segment
in input order a `[HH:MM:SS]` line, the stripped text, and a blank line. -/
def specDocumentLines (now : PyDateTime) (segments : List Segment) : List String :=
  ["D&D SESSION TRANSCRIPTION",
   String.mk (List.replicate 50 '='),
   "Generated on: " ++ strftimeHeader now,
   ""] ++
  segments.flatMap (fun seg => ["[" ++ format_timestamp seg.start ++ "]", pyStrip seg.text, ""])

/-- The numeric value a decimal digit string denotes (left fold, most
significant digit first). -/
def decValue (l : List Char) : Nat :=
  l.foldl (fun a c => 10 * a + (c.toNat - 48)) 0

/-! ### Concrete evaluations of the Timestamp Formatter -/

/-- Evaluation helper: once the three floor fields are known, the rendered
string is a pure character computation. -/
theorem format_timestamp_eval (s : ℚ) (H M S : ℤ) (h1 : hoursOf s = H)
    (h2 : minutesOf s = M) (h3 : secsOf s = S) :
    format_timestamp s = pad2Int H ++ ":" ++ pad2Int M ++ ":" ++ pad2Int S := by
  rw [format_timestamp, h1, h2, h3]

theorem format_timestamp_zero : format_timestamp 0 = "00:00:00" := by
  rw [format_timestamp_eval 0 0 0 0 (by unfold hoursOf; norm_num)
    (by unfold minutesOf pymod; norm_num) (by unfold secsOf pymod; norm_num)]
  decide

theorem format_timestamp_59 : format_timestamp 59 = "00:00:59" := by
  rw [format_timestamp_eval 59 0 0 59 (by unfold hoursOf; norm_num)
    (by unfold minutesOf pymod; norm_num) (by unfold secsOf pymod; norm_num)]
  decide

theorem format_timestamp_65 : format_timestamp 65 = "00:01:05" := by
  rw [format_timestamp_eval 65 0 1 5 (by unfold hoursOf; norm_num)
    (by unfold minutesOf pymod; norm_num) (by unfold secsOf pymod; norm_num)]
  decide

theorem format_timestamp_3661 : format_timestamp 3661 = "01:01:01" := by
  rw [format_timestamp_eval 3661 1 1 1 (by unfold hoursOf; norm_num)
    (by unfold minutesOf pymod; norm_num) (by unfold secsOf pymod; norm_num)]
  decide

theorem format_timestamp_360000 : format_timestamp 360000 = "100:00:00" := by
  rw [format_timestamp_eval 360000 100 0 0 (by unfold hoursOf; norm_num)
    (by unfold minutesOf pymod; norm_num) (by unfold secsOf pymod; norm_num)]
  decide

theorem format_timestamp_neg_one : format_timestamp (-1) = "-1:59:59" := by
  rw [format_timestamp_eval (-1) (-1) 59 59 (by unfold hoursOf; norm_num)
    (by unfold minutesOf pymod; norm_num) (by unfold secsOf pymod; norm_num)]
  decide

/-! ### Properties of the decimal rendering -/

theorem decDigitsAux_succ (fuel n : Nat) :
    decDigitsAux (fuel + 1) n =
      if n = 0 then [] else decDigitsAux fuel (n / 10) ++ [Nat.digitChar (n % 10)] := rfl

theorem decDigitsAux_length_pos (fuel n : Nat) (hn : 1 ≤ n) (hf : n ≤ fuel) :
    1 ≤ (decDigitsAux fuel n).length := by
  cases fuel with
  | zero => omega
  | succ f =>
    rw [decDigitsAux_succ, if_neg (by omega)]
    simp

theorem decDigitsAux_length_ge2 (fuel n : Nat) (hn : 10 ≤ n) (hf : n ≤ fuel) :
    2 ≤ (decDigitsAux fuel n).length := by
  cases fuel with
  | zero => omega
  | succ f =>
    rw [decDigitsAux_succ, if_neg (by omega)]
    have h1 : 1 ≤ (decDigitsAux f (n / 10)).length :=
      decDigitsAux_length_pos f (n / 10) (by omega) (by omega)
    simp
    omega

theorem decDigitsAux_length_ge3 (fuel n : Nat) (hn : 100 ≤ n) (hf : n ≤ fuel) :
    3 ≤ (decDigitsAux fuel n).length := by
  cases fuel with
  | zero => omega
  | succ f =>
    rw [decDigitsAux_succ, if_neg (by omega)]
    have h1 : 2 ≤ (decDigitsAux f (n / 10)).length :=
      decDigitsAux_length_ge2 f (n / 10) (by omega) (by omega)
    simp
    omega

theorem digitChar_val (d : Nat) (hd : d < 10) : (Nat.digitChar d).toNat - 48 = d := by
  interval_cases d <;> decide

theorem decDigitsAux_foldl (fuel : Nat) : ∀ n a, n ≤ fuel →
    (decDigitsAux fuel n).foldl (fun a c => 10 * a + (c.toNat - 48)) a =
      a * 10 ^ (decDigitsAux fuel n).length + n := by
  induction fuel with
  | zero => intro n a h; interval_cases n; simp [decDigitsAux]
  | succ f ih =>
    intro n a h
    rw [decDigitsAux_succ]
    by_cases h0 : n = 0
    · simp [h0]
    · rw [if_neg h0, List.foldl_append, ih (n / 10) a (by omega)]
      simp [List.foldl, digitChar_val (n % 10) (Nat.mod_lt n (by omega))]
      rw [Nat.pow_succ]
      have := Nat.div_add_mod n 10
      ring_nf
      omega

theorem decValue_natToDec (n : Nat) : decValue (natToDec n).data = n := by
  by_cases h0 : n = 0
  · subst h0; decide
  · unfold natToDec
    rw [if_neg h0]
    show decValue (decDigitsAux n n) = n
    unfold decValue
    rw [decDigitsAux_foldl n n 0 (Nat.le_refl n)]
    simp

theorem natToDec_inj : Function.Injective natToDec := by
  intro m n h
  have hm := decValue_natToDec m
  have hn := decValue_natToDec n
  rw [h, hn] at hm
  exact hm.symm

theorem natToDec_length_pos (n : Nat) : 1 ≤ (natToDec n).length := by
  by_cases h0 : n = 0
  · subst h0; decide
  · unfold natToDec
    rw [if_neg h0]
    exact decDigitsAux_length_pos n n (by omega) (Nat.le_refl n)

theorem decValue_padNat2 (n : Nat) : decValue (padNat2 n).data = n := by
  unfold padNat2
  by_cases h : n < 10
  · rw [if_pos h]
    have : ("0" ++ natToDec n).data = '0' :: (natToDec n).data := by
      simp [String.data_append]
    rw [this]
    show List.foldl _ (10 * 0 + ('0'.toNat - 48)) (natToDec n).data = n
    have h0 : 10 * 0 + ('0'.toNat - 48) = 0 := by decide
    rw [h0]
    exact decValue_natToDec n
  · rw [if_neg h]; exact decValue_natToDec n

theorem padNat2_inj : Function.Injective padNat2 := by
  intro m n h
  have hm := decValue_padNat2 m
  have hn := decValue_padNat2 n
  rw [h, hn] at hm
  exact hm.symm

theorem padNat2_length_small : ∀ n, n < 100 → (padNat2 n).length = 2 := by decide

theorem padNat2_length_ge2 (n : Nat) : 2 ≤ (padNat2 n).length := by
  by_cases h : n < 100
  · rw [padNat2_length_small n h]
  · unfold padNat2
    rw [if_neg (by omega)]
    unfold natToDec
    rw [if_neg (by omega)]
    show 2 ≤ (decDigitsAux n n).length
    exact decDigitsAux_length_ge2 n n (by omega) (Nat.le_refl n)

theorem padNat2_big (n : Nat) (h : 100 ≤ n) :
    padNat2 n = natToDec n ∧ 3 ≤ (padNat2 n).length := by
  have he : padNat2 n = natToDec n := by unfold padNat2; rw [if_neg (by omega)]
  refine ⟨he, ?_⟩
  rw [he]
  unfold natToDec
  rw [if_neg (by omega)]
  show 3 ≤ (decDigitsAux n n).length
  exact decDigitsAux_length_ge3 n n h (Nat.le_refl n)

/-! ### Bounds on the Python modulus and the timestamp fields -/

theorem pymod_nonneg (s m : ℚ) (hm : 0 < m) : 0 ≤ pymod s m := by
  unfold pymod
  have h := Int.floor_le (s / m)
  have h2 : m * ((⌊s / m⌋ : ℤ) : ℚ) ≤ m * (s / m) := by
    exact mul_le_mul_of_nonneg_left h hm.le
  rw [mul_comm m (s / m), div_mul_cancel₀ s hm.ne'] at h2
  linarith

theorem pymod_lt (s m : ℚ) (hm : 0 < m) : pymod s m < m := by
  unfold pymod
  have h := Int.lt_floor_add_one (s / m)
  have h2 : m * (s / m) < m * (((⌊s / m⌋ : ℤ) : ℚ) + 1) := by
    exact mul_lt_mul_of_pos_left h hm
  rw [mul_comm m (s / m), div_mul_cancel₀ s hm.ne'] at h2
  nlinarith

theorem minutesOf_nonneg (s : ℚ) : 0 ≤ minutesOf s := by
  unfold minutesOf
  exact Int.floor_nonneg.mpr (div_nonneg (pymod_nonneg s 3600 (by norm_num)) (by norm_num))

theorem minutesOf_lt (s : ℚ) : minutesOf s < 60 := by
  unfold minutesOf
  rw [Int.floor_lt]
  push_cast
  rw [div_lt_iff₀ (by norm_num : (0:ℚ) < 60)]
  have := pymod_lt s 3600 (by norm_num)
  linarith

theorem secsOf_nonneg (s : ℚ) : 0 ≤ secsOf s := by
  unfold secsOf
  exact Int.floor_nonneg.mpr (pymod_nonneg s 60 (by norm_num))

theorem secsOf_lt (s : ℚ) : secsOf s < 60 := by
  unfold secsOf
  rw [Int.floor_lt]
  push_cast
  exact pymod_lt s 60 (by norm_num)

theorem hoursOf_nonneg (s : ℚ) (h : 0 ≤ s) : 0 ≤ hoursOf s := by
  unfold hoursOf
  exact Int.floor_nonneg.mpr (div_nonneg h (by norm_num))

theorem hoursOf_neg (s : ℚ) (h : s < 0) : hoursOf s < 0 := by
  unfold hoursOf
  rw [Int.floor_lt]
  push_cast
  exact div_neg_of_neg_of_pos h (by norm_num)

theorem timestamp_invariant (s : ℚ) :
    3600 * hoursOf s + 60 * minutesOf s + secsOf s = ⌊s⌋ := by
  unfold hoursOf minutesOf secsOf
  have h1 : pymod s 3600 / 60 = s / 60 - ((60 * ⌊s / 3600⌋ : ℤ) : ℚ) := by
    unfold pymod; push_cast; ring
  have h2 : pymod s 60 = s - ((60 * ⌊s / 60⌋ : ℤ) : ℚ) := by
    unfold pymod; push_cast; ring
  rw [h1, h2, Int.floor_sub_int, Int.floor_sub_int]
  ring

/-! ### Structure of the built transcript -/

theorem foldl_segLines (segs : List Segment) : ∀ acc : List String,
    segs.foldl (fun a seg => a ++ segLines seg) acc = acc ++ segs.flatMap segLines := by
  induction segs with
  | nil => intro acc; simp
  | cons s t ih =>
    intro acc
    rw [List.foldl_cons, ih (acc ++ segLines s), List.flatMap_cons, List.append_assoc]

theorem transcriptLines_eq (now : PyDateTime) (segs : List Segment) :
    transcriptLines now segs = headerLines now ++ segs.flatMap segLines := by
  unfold transcriptLines
  exact foldl_segLines segs (headerLines now)

theorem flatMap_segLines_length (segs : List Segment) :
    (segs.flatMap segLines).length = 3 * segs.length := by
  induction segs with
  | nil => simp
  | cons s t ih =>
    rw [List.flatMap_cons, List.length_append, ih]
    simp [segLines]
    ring

theorem transcriptLines_length (now : PyDateTime) (segs : List Segment) :
    (transcriptLines now segs).length = 4 + 3 * segs.length := by
  rw [transcriptLines_eq, List.length_append, flatMap_segLines_length]
  simp [headerLines]

theorem flatMap_segLines_block (segs : List Segment) : ∀ (n : Nat) (h : n < segs.length),
    ((segs.flatMap segLines).drop (3 * n)).take 3 = segLines (segs.get ⟨n, h⟩) := by
  induction segs with
  | nil => intro n h; simp at h
  | cons s t ih =>
    intro n h
    cases n with
    | zero =>
      rw [List.flatMap_cons]
      simp
      exact List.take_left' (by simp [segLines])
    | succ m =>
      rw [List.flatMap_cons]
      have h3 : 3 * (m + 1) = (segLines s).length + 3 * m := by simp [segLines]; ring
      rw [h3, ← List.drop_drop, List.drop_left' rfl]
      exact ih m (by simpa using h)

theorem transcript_block (now : PyDateTime) (segs : List Segment) (n : Nat)
    (h : n < segs.length) :
    ((transcriptLines now segs).drop (4 + 3 * n)).take 3 = segLines (segs.get ⟨n, h⟩) := by
  rw [transcriptLines_eq]
  have h4 : 4 + 3 * n = (headerLines now).length + 3 * n := by simp [headerLines]
  rw [h4, ← List.drop_drop, List.drop_left' rfl]
  exact flatMap_segLines_block segs n h

/-! ### Structure of `pyStrip` -/

theorem takeWhile_mem (p : Char → Bool) : ∀ (l : List Char) (c : Char),
    c ∈ l.takeWhile p → p c = true := by
  intro l c h
  have := List.mem_takeWhile_imp h
  exact this

theorem dropWhile_head_not (p : Char → Bool) : ∀ (l : List Char) (x : Char),
    (l.dropWhile p).head? = some x → p x = false := by
  intro l x h
  induction l with
  | nil => simp [List.dropWhile] at h
  | cons c t ih =>
    rw [List.dropWhile_cons] at h
    by_cases hc : p c
    · rw [if_pos hc] at h; exact ih h
    · rw [if_neg hc] at h
      simp at h
      rw [← h]
      simpa using hc

theorem pyStrip_decomposition (s : String) :
    ∃ pre post : List Char,
      s.data = pre ++ (pyStrip s).data ++ post ∧
      (∀ c ∈ pre, isPyWhite c = true) ∧
      (∀ c ∈ post, isPyWhite c = true) ∧
      (∀ x, (pyStrip s).data.head? = some x → isPyWhite x = false) ∧
      (∀ x, (pyStrip s).data.getLast? = some x → isPyWhite x = false) := by
  set l := s.data with hl
  set d := l.dropWhile isPyWhite with hd
  set e := d.reverse.dropWhile isPyWhite with he
  have hstrip : (pyStrip s).data = e.reverse := by
    simp [pyStrip, he, hd, hl]
  refine ⟨l.takeWhile isPyWhite, (d.reverse.takeWhile isPyWhite).reverse, ?_, ?_, ?_, ?_, ?_⟩
  · rw [hstrip]
    have h1 : l = l.takeWhile isPyWhite ++ d := (List.takeWhile_append_dropWhile isPyWhite l).symm
    have h2 : d.reverse = d.reverse.takeWhile isPyWhite ++ e :=
      (List.takeWhile_append_dropWhile isPyWhite d.reverse).symm
    have h3 : d = e.reverse ++ (d.reverse.takeWhile isPyWhite).reverse := by
      have := congrArg List.reverse h2
      rw [List.reverse_reverse, List.reverse_append] at this
      exact this
    rw [List.append_assoc, ← h3]
    exact h1
  · intro c hc
    exact takeWhile_mem isPyWhite l c hc
  · intro c hc
    rw [List.mem_reverse] at hc
    exact takeWhile_mem isPyWhite d.reverse c hc
  · intro x hx
    rw [hstrip] at hx
    -- `e.reverse` is a prefix of `d`, so its head is `d`'s head, which the
    -- first `dropWhile` guarantees is not whitespace.
    have hpre : e.reverse <+: d := by
      have hsuf : e <:+ d.reverse := List.dropWhile_suffix isPyWhite
      have := hsuf.reverse
      rw [List.reverse_reverse] at this
      exact this
    obtain ⟨t, ht⟩ := hpre
    have hdhead : d.head? = some x := by
      rw [← ht]
      cases hrev : e.reverse with
      | nil => rw [hrev] at hx; simp at hx
      | cons y ys =>
        rw [hrev] at hx
        simp at hx
        simp [hx]
    exact dropWhile_head_not isPyWhite l x hdhead
  · intro x hx
    rw [hstrip, List.getLast?_reverse] at hx
    exact dropWhile_head_not isPyWhite d.reverse x hx

/-! ### Miscellaneous helpers -/

theorem intercalate_four (sep a b c d : String) :
    String.intercalate sep [a, b, c, d] = a ++ sep ++ b ++ sep ++ c ++ sep ++ d := rfl

/-! ### The claims -/

/-- C1: For every ordered sequence of segments and a generation instant,
`create_dnd_transcript` produces exactly the newline-joined document the
spec describes (title line, 50-`=` separator, generated-on line, blank
line, then per segment a `[HH:MM:SS]` line, the stripped text, and a blank
line); in particular the spec's two-segment example yields exactly the
shown document. -/
theorem transcript_matches_spec_document :
    (∀ (now : PyDateTime) (segments : List Segment),
      create_dnd_transcript now segments =
        String.intercalate "\n" (specDocumentLines now segments)) ∧
    create_dnd_transcript ⟨2024, 1, 1, 12, 0, 0⟩
        [⟨0, "Welcome"⟩, ⟨65, "Let's begin."⟩] =
      "D&D SESSION TRANSCRIPTION\n" ++ String.mk (List.replicate 50 '=') ++
        "\nGenerated on: 2024-01-01 12:00:00\n\n[00:00:00]\nWelcome\n\n[00:01:05]\nLet's begin.\n" := by
  constructor
  · intro now segments
    unfold create_dnd_transcript specDocumentLines
    rw [transcriptLines_eq]
    rfl
  · unfold create_dnd_transcript
    rw [transcriptLines_eq]
    simp only [headerLines, segLines, List.flatMap_cons, List.flatMap_nil,
      format_timestamp_zero, format_timestamp_65]
    decide

/-- C2: For non-negative seconds, `format_timestamp` renders the three
fields hours = `⌊s / 3600⌋`, minutes = `⌊(s mod 3600) / 60⌋`,
secs = `⌊s mod 60⌋` with no rounding, the invariant
`3600*H + 60*M + S = ⌊s⌋` holds (1-second truncation), and the four
spec examples evaluate as stated. -/
theorem format_timestamp_fields_and_invariant (s : ℚ) (_h : 0 ≤ s) :
    format_timestamp s =
      pad2Int ⌊s / 3600⌋ ++ ":" ++ pad2Int ⌊pymod s 3600 / 60⌋ ++ ":" ++ pad2Int ⌊pymod s 60⌋ ∧
    3600 * hoursOf s + 60 * minutesOf s + secsOf s = ⌊s⌋ ∧
    (⌊s⌋ : ℚ) ≤ s ∧ s < (⌊s⌋ : ℚ) + 1 ∧
    format_timestamp 0 = "00:00:00" ∧ format_timestamp 3661 = "01:01:01" ∧
    format_timestamp 59 = "00:00:59" ∧ format_timestamp 360000 = "100:00:00" :=
  ⟨rfl, timestamp_invariant s, Int.floor_le s, Int.lt_floor_add_one s,
    format_timestamp_zero, format_timestamp_3661, format_timestamp_59, format_timestamp_360000⟩

theorem format_timestamp_fields_witness :
    (0 : ℚ) ≤ 3661 ∧
      3600 * hoursOf 3661 + 60 * minutesOf 3661 + secsOf 3661 = ⌊(3661 : ℚ)⌋ :=
  ⟨by norm_num, (format_timestamp_fields_and_invariant 3661 (by norm_num)).2.1⟩

/-- C3: For non-negative input, the hours field is zero-padded to at least
2 digits, grows to at least 3 characters when hours ≥ 100, and the
rendering is injective (never truncates or clamps); minutes and seconds
are exactly 2 characters and in the range 0–59. -/
theorem format_timestamp_padding (s : ℚ) (h : 0 ≤ s) :
    ∃ hstr mstr sstr : String,
      format_timestamp s = hstr ++ ":" ++ mstr ++ ":" ++ sstr ∧
      hstr = padNat2 (hoursOf s).toNat ∧ 2 ≤ hstr.length ∧
      (100 ≤ hoursOf s → 3 ≤ hstr.length) ∧
      (∀ a b : Nat, padNat2 a = padNat2 b → a = b) ∧
      mstr = padNat2 (minutesOf s).toNat ∧ mstr.length = 2 ∧
      sstr = padNat2 (secsOf s).toNat ∧ sstr.length = 2 ∧
      0 ≤ minutesOf s ∧ minutesOf s ≤ 59 ∧ 0 ≤ secsOf s ∧ secsOf s ≤ 59 := by
  have hH : ¬ hoursOf s < 0 := not_lt.mpr (hoursOf_nonneg s h)
  have hM : ¬ minutesOf s < 0 := not_lt.mpr (minutesOf_nonneg s)
  have hS : ¬ secsOf s < 0 := not_lt.mpr (secsOf_nonneg s)
  refine ⟨padNat2 (hoursOf s).toNat, padNat2 (minutesOf s).toNat, padNat2 (secsOf s).toNat,
    ?_, rfl, padNat2_length_ge2 _, ?_, fun a b hab => padNat2_inj hab, rfl, ?_, rfl, ?_,
    minutesOf_nonneg s, by have := minutesOf_lt s; omega,
    secsOf_nonneg s, by have := secsOf_lt s; omega⟩
  · unfold format_timestamp pad2Int
    rw [if_neg hH, if_neg hM, if_neg hS]
  · intro h100
    exact (padNat2_big (hoursOf s).toNat (by omega)).2
  · exact padNat2_length_small _ (by have := minutesOf_lt s; omega)
  · exact padNat2_length_small _ (by have := secsOf_lt s; omega)

theorem format_timestamp_padding_witness :
    ∃ hstr mstr sstr : String,
      format_timestamp (360000 : ℚ) = hstr ++ ":" ++ mstr ++ ":" ++ sstr ∧
      hstr = padNat2 (hoursOf 360000).toNat ∧ 2 ≤ hstr.length ∧
      (100 ≤ hoursOf 360000 → 3 ≤ hstr.length) ∧
      (∀ a b : Nat, padNat2 a = padNat2 b → a = b) ∧
      mstr = padNat2 (minutesOf 360000).toNat ∧ mstr.length = 2 ∧
      sstr = padNat2 (secsOf 360000).toNat ∧ sstr.length = 2 ∧
      0 ≤ minutesOf 360000 ∧ minutesOf 360000 ≤ 59 ∧
      0 ≤ secsOf 360000 ∧ secsOf 360000 ≤ 59 :=
  format_timestamp_padding 360000 (by norm_num)

/-- C4 counterexample: the code reads `datetime.now()` twice (line 60 for
the header, line 256 for the filename); on a run where the clock advances
by one second between the reads, the header embeds `2024-01-01 12:00:00`
while the filename embeds `20240101_120001`, so the filename instant is
not the header instant. -/
theorem filename_not_header_instant :
    (mainOutputs ⟨2024, 1, 1, 12, 0, 0⟩ ⟨2024, 1, 1, 12, 0, 1⟩ []).1 =
      "D&D SESSION TRANSCRIPTION\n" ++ String.mk (List.replicate 50 '=') ++
        "\nGenerated on: 2024-01-01 12:00:00\n" ∧
    (mainOutputs ⟨2024, 1, 1, 12, 0, 0⟩ ⟨2024, 1, 1, 12, 0, 1⟩ []).2 =
      "dnd_session_20240101_120001.txt" ∧
    (mainOutputs ⟨2024, 1, 1, 12, 0, 0⟩ ⟨2024, 1, 1, 12, 0, 1⟩ []).2 ≠
      transcript_filename ⟨2024, 1, 1, 12, 0, 0⟩ := by
  decide

/-- C4 amended: the filename always has the fixed pattern
`dnd_session_YYYYMMDD_HHMMSS.txt`, but it is derived from a second
`datetime.now()` read taken at filename-creation time; whenever the two
clock reads return the same instant the filename instant and the header
instant agree. -/
theorem filename_pattern_and_agreement (t1 t2 : PyDateTime) (segments : List Segment) :
    (mainOutputs t1 t2 segments).2 = "dnd_session_" ++ strftimeFile t2 ++ ".txt" ∧
    (t1 = t2 → (mainOutputs t1 t2 segments).2 = transcript_filename t1) := by
  refine ⟨rfl, ?_⟩
  intro h
  subst h
  rfl

theorem filename_pattern_witness :
    (mainOutputs ⟨2024, 1, 1, 12, 0, 0⟩ ⟨2024, 1, 1, 12, 0, 0⟩ []).2 =
      transcript_filename ⟨2024, 1, 1, 12, 0, 0⟩ :=
  (filename_pattern_and_agreement ⟨2024, 1, 1, 12, 0, 0⟩ ⟨2024, 1, 1, 12, 0, 0⟩ []).2 rfl

/-- C5: the Transcript Builder is one-to-one and order-preserving: the
line list is the header followed by each segment's block in input order,
its length is exactly `4 + 3 * n`, and for every index `N` the `N`-th
three-line block of the output is exactly input segment `N`'s block. -/
theorem transcript_one_to_one (now : PyDateTime) (segments : List Segment) :
    transcriptLines now segments = headerLines now ++ segments.flatMap segLines ∧
    (transcriptLines now segments).length = 4 + 3 * segments.length ∧
    ∀ (n : Nat) (hn : n < segments.length),
      ((transcriptLines now segments).drop (4 + 3 * n)).take 3 =
        segLines (segments.get ⟨n, hn⟩) :=
  ⟨transcriptLines_eq now segments, transcriptLines_length now segments,
    fun n hn => transcript_block now segments n hn⟩

theorem transcript_one_to_one_witness :
    ((transcriptLines ⟨2024, 1, 1, 12, 0, 0⟩ [⟨0, "Hi"⟩]).drop (4 + 3 * 0)).take 3 =
      segLines (([⟨0, "Hi"⟩] : List Segment).get ⟨0, by decide⟩) :=
  (transcript_one_to_one ⟨2024, 1, 1, 12, 0, 0⟩ [⟨0, "Hi"⟩]).2.2 0 (by decide)

/-- C6: zero segments yield a valid document of exactly the 4 header
lines (title, separator, generated-on, blank) and nothing else. -/
theorem empty_input_header_only (now : PyDateTime) :
    transcriptLines now [] =
      ["D&D SESSION TRANSCRIPTION", String.mk (List.replicate 50 '='),
        "Generated on: " ++ strftimeHeader now, ""] ∧
    (transcriptLines now []).length = 4 ∧
    create_dnd_transcript now [] =
      "D&D SESSION TRANSCRIPTION" ++ "\n" ++ String.mk (List.replicate 50 '=') ++ "\n" ++
        ("Generated on: " ++ strftimeHeader now) ++ "\n" := by
  refine ⟨rfl, rfl, ?_⟩
  show String.intercalate "\n" (transcriptLines now []) = _
  have h0 : transcriptLines now [] = headerLines now := rfl
  rw [h0]
  show String.intercalate "\n" ["D&D SESSION TRANSCRIPTION", String.mk (List.replicate 50 '='),
    "Generated on: " ++ strftimeHeader now, ""] = _
  rw [intercalate_four, String.append_empty]

/-- C7: the text on each segment's transcript line is the segment's text
with leading and trailing whitespace stripped and interior text unchanged:
the original splits as whitespace ++ stripped ++ whitespace, the stripped
text neither starts nor ends with whitespace, the second line of each
segment block is exactly the stripped text, and the spec's example strips
to `"hello world"`. -/
theorem segment_text_stripped (s : String) :
    (∃ pre post : List Char,
      s.data = pre ++ (pyStrip s).data ++ post ∧
      (∀ c ∈ pre, isPyWhite c = true) ∧
      (∀ c ∈ post, isPyWhite c = true) ∧
      (∀ x, (pyStrip s).data.head? = some x → isPyWhite x = false) ∧
      (∀ x, (pyStrip s).data.getLast? = some x → isPyWhite x = false)) ∧
    (∀ seg : Segment, (segLines seg)[1]? = some (pyStrip seg.text)) ∧
    pyStrip "  hello world  \n" = "hello world" :=
  ⟨pyStrip_decomposition s, fun _ => rfl, by decide⟩

theorem segment_text_stripped_witness :
    ∃ pre post : List Char,
      ("  hello world  \n" : String).data = pre ++ (pyStrip "  hello world  \n").data ++ post ∧
      (∀ c ∈ pre, isPyWhite c = true) ∧
      (∀ c ∈ post, isPyWhite c = true) ∧
      (∀ x, (pyStrip "  hello world  \n").data.head? = some x → isPyWhite x = false) ∧
      (∀ x, (pyStrip "  hello world  \n").data.getLast? = some x → isPyWhite x = false) :=
  (segment_text_stripped "  hello world  \n").1

/-- C8: the Transcript Builder is deterministic: two runs with identical
segment sequences and the same generation instant return identical
strings (the embedding is a pure function of the instant and the
segments, performing no I/O and mutating no state). -/
theorem builder_deterministic (t1 t2 : PyDateTime) (s1 s2 : List Segment)
    (ht : t1 = t2) (hs : s1 = s2) :
    create_dnd_transcript t1 s1 = create_dnd_transcript t2 s2 := by
  rw [ht, hs]

theorem builder_deterministic_witness :
    create_dnd_transcript ⟨2024, 1, 1, 12, 0, 0⟩ [⟨0, "Hi"⟩] =
      create_dnd_transcript ⟨2024, 1, 1, 12, 0, 0⟩ [⟨0, "Hi"⟩] :=
  builder_deterministic _ _ _ _ rfl rfl

/-- C9: over the documented domain the core is total: `format_timestamp`
always returns a well-formed string (at least `HH:MM:SS` long) on
non-negative input, and `create_dnd_transcript` always returns a document
of exactly `4 + 3 * n` lines for any segment count including zero; the
embedding has no error outcome (both are total functions into `String`). -/
theorem core_total :
    (∀ s : ℚ, 0 ≤ s → 8 ≤ (format_timestamp s).length) ∧
    (∀ (now : PyDateTime) (segments : List Segment),
      (transcriptLines now segments).length = 4 + 3 * segments.length) := by
  constructor
  · intro s h
    unfold format_timestamp pad2Int
    rw [if_neg (not_lt.mpr (hoursOf_nonneg s h)), if_neg (not_lt.mpr (minutesOf_nonneg s)),
      if_neg (not_lt.mpr (secsOf_nonneg s))]
    have h1 := padNat2_length_ge2 (hoursOf s).toNat
    have h2 := padNat2_length_ge2 (minutesOf s).toNat
    have h3 := padNat2_length_ge2 (secsOf s).toNat
    have h4 : (":" : String).length = 1 := rfl
    simp only [String.length_append]
    omega
  · exact transcriptLines_length

theorem core_total_witness : 8 ≤ (format_timestamp 3661).length :=
  core_total.1 3661 (by norm_num)

/-- C10: on negative input `format_timestamp` still returns a string,
with Python floor-division/modulo semantics: minutes and seconds stay in
0–59 while the hour field is negative, breaking the two-digit-hour shape;
in particular `format_timestamp(-1) = "-1:59:59"`. -/
theorem format_timestamp_negative (s : ℚ) (h : s < 0) :
    hoursOf s < 0 ∧ 0 ≤ minutesOf s ∧ minutesOf s ≤ 59 ∧ 0 ≤ secsOf s ∧ secsOf s ≤ 59 ∧
    format_timestamp s =
      "-" ++ natToDec (hoursOf s).natAbs ++ ":" ++ padNat2 (minutesOf s).toNat ++ ":" ++
        padNat2 (secsOf s).toNat ∧
    format_timestamp (-1) = "-1:59:59" := by
  have hH := hoursOf_neg s h
  refine ⟨hH, minutesOf_nonneg s, by have := minutesOf_lt s; omega,
    secsOf_nonneg s, by have := secsOf_lt s; omega, ?_, format_timestamp_neg_one⟩
  unfold format_timestamp pad2Int
  rw [if_pos hH, if_neg (not_lt.mpr (minutesOf_nonneg s)),
    if_neg (not_lt.mpr (secsOf_nonneg s))]

theorem format_timestamp_negative_witness :
    (-1 : ℚ) < 0 ∧ format_timestamp (-1) = "-1:59:59" :=
  ⟨by norm_num, (format_timestamp_negative (-1) (by norm_num)).2.2.2.2.2.2⟩
